import Mathlib

/-!
Verification of the `Dcm2nii` interface (`nipype/interfaces/dcm2nii.py`):
a shallow embedding of the stdout scraper `_parse_stdout`, the argument
formatter `_format_arg`, and the filename generator `_gen_filename`,
together with theorems settling the specification's claims about them.

Python strings are modelled as lists of characters (`Str`) so that every
operation is a structurally recursive, kernel-computable Lean function.
-/

namespace Dcm2nii

/-- Python strings, modelled as character lists. -/
abbrev Str := List Char

/-! ## Python / POSIX primitives used by the source -/

/-- `str.split(sep)` for a one-character separator, e.g. `stdout.split("\n")`.
Mirrors Python semantics: splitting the empty string yields `[""]`, and a
trailing separator yields a trailing empty piece. -/
def splitChar (sep : Char) : Str → List Str
  | [] => [[]]
  | c :: rest =>
    if c = sep then [] :: splitChar sep rest
    else
      match splitChar sep rest with
      | [] => [[c]]
      | h :: t => (c :: h) :: t

/-- The capture group of `re.search('.*-->(.*)', line)`: because the leading
`.*` is greedy, a successful search captures the suffix of the line after the
LAST occurrence of `-->` (the pattern `-->` cannot overlap itself, so a
left-to-right non-overlapping scan finds every occurrence).  Returns `none`
exactly when the line has no `-->`, i.e. when `re.search` returns no match. -/
def arrowCapture : Str → Option Str
  | '-' :: '-' :: '>' :: rest =>
    match arrowCapture rest with
    | some s => some s
    | none => some rest
  | _ :: rest => arrowCapture rest
  | [] => none

/-- `os.path.join(a, b)` for POSIX paths (two arguments, as used by the source). -/
def posixJoin (a b : Str) : Str :=
  if (['/'] : Str).isPrefixOf b then b
  else if a = [] ∨ a.getLast? = some '/' then a ++ b
  else a ++ '/' :: b

/-- Helper for `os.path.split`: cut a path at the position just after the last
`'/'`, returning `(p[:i], p[i:])` for `i = p.rfind('/') + 1`. -/
def splitSlash : Str → Str × Str
  | [] => ([], [])
  | c :: rest =>
    if '/' ∈ rest then
      let pr := splitSlash rest
      (c :: pr.1, pr.2)
    else if c = '/' then ([c], rest)
    else ([], c :: rest)

/-- `os.path.split(p)` for POSIX paths: head up to the last `'/'` (with
trailing slashes stripped unless the head is all slashes), tail after it. -/
def posixSplit (p : Str) : Str × Str :=
  let pr := splitSlash p
  if pr.1 ≠ [] ∧ pr.1.any (fun c => c ≠ '/') then
    ((pr.1.reverse.dropWhile (fun c => c = '/')).reverse, pr.2)
  else pr

/-- `os.path.normpath(p)` for POSIX paths: collapse repeated separators and
`.` components, resolve `..` against preceding components, preserving the
special double-slash prefix exactly as CPython's `posixpath.normpath` does. -/
def posixNormpath (p : Str) : Str :=
  if p = [] then ['.']
  else
    let slashes : Nat :=
      if (['/'] : Str).isPrefixOf p then
        if (['/', '/'] : Str).isPrefixOf p ∧ ¬ (['/', '/', '/'] : Str).isPrefixOf p then 2 else 1
      else 0
    let comps := splitChar '/' p
    let newComps := comps.foldl (fun acc comp =>
      if comp = [] ∨ comp = ['.'] then acc
      else if comp ≠ ['.', '.'] ∨ (slashes = 0 ∧ acc = []) ∨ acc.getLast? = some ['.', '.'] then
        acc ++ [comp]
      else if acc ≠ [] then acc.dropLast
      else acc) []
    let joined := List.intercalate ['/'] newComps
    let res := List.replicate slashes '/' ++ joined
    if res = [] then ['.'] else res

/-- `os.path.abspath(p)`: join onto the current working directory when the
path is relative, then normalize. -/
def posixAbspath (cwd p : Str) : Str :=
  if (['/'] : Str).isPrefixOf p then posixNormpath p
  else posixNormpath (posixJoin cwd p)

/-- Python truthiness of an optional string (`None` and `""` are falsy),
used for `if file:` and `if last_added_file:` in `_parse_stdout`. -/
def pyTruthy : Option Str → Bool
  | none => false
  | some s => s ≠ []

/-- Split a filename at its last extension dot (the part after the final `.`,
provided a base name remains); helper for `splitFilename`. -/
def splitExt (fname : Str) : Str × Str :=
  let r := fname.reverse
  let extRev := r.takeWhile (fun c => c ≠ '.')
  if extRev.length < r.length ∧ r.drop (extRev.length + 1) ≠ [] then
    ((r.drop (extRev.length + 1)).reverse, '.' :: extRev.reverse)
  else (fname, [])

/-- Modelled from the spec: `split_filename` lives in `nipype.utils.filemanip`,
which is not part of this source tree.  The spec states that the derived
b-vector and b-value paths share the last file's directory and base name with
different extensions, so a path is split into its directory (POSIX split),
its base name (filename with the extension removed) and its extension. -/
def splitFilename (p : Str) : Str × Str × Str :=
  let pr := posixSplit p
  let se := splitExt pr.2
  (pr.1, se.1, se.2)

/-! ## Configuration and scraper state -/

/-- The inputs `_parse_stdout` consults: the `output_dir` trait (`none` models
an undefined trait, i.e. `isdefined` is false) and the value `os.getcwd()`
returns during this invocation. -/
structure Dcm2niiConfig where
  output_dir : Option Str
  cwd : Str
deriving DecidableEq

/-- `_gen_filename('output_dir')`: returns `os.getcwd()`. -/
def genFilenameOutputDir (cfg : Dcm2niiConfig) : Str := cfg.cwd

/-- The output-directory resolution block appearing (twice) in
`_parse_stdout`: `inputs.output_dir` if defined, else
`_gen_filename('output_dir')`. -/
def effectiveOutputDir (cfg : Dcm2niiConfig) : Str :=
  match cfg.output_dir with
  | some d => d
  | none => genFilenameOutputDir cfg

/-- The mutable state of the `_parse_stdout` loop: the five accumulated path
lists, the skip-next-line flag and the last added file. -/
structure ScrapeState where
  files : List Str
  reoriented_files : List Str
  reoriented_and_cropped_files : List Str
  bvecs : List Str
  bvals : List Str
  skip : Bool
  last_added_file : Option Str
deriving DecidableEq

/-- The state at the top of `_parse_stdout`. -/
def initState : ScrapeState :=
  { files := [], reoriented_files := [], reoriented_and_cropped_files := []
  , bvecs := [], bvals := [], skip := false, last_added_file := none }

/-- Marker `"Saving "`. -/
def sSaving : Str := "Saving ".data

/-- Marker `"GZip..."`. -/
def sGZip : Str := "GZip...".data

/-- Marker `"Number of diffusion directions "`. -/
def sNumDiff : Str := "Number of diffusion directions ".data

/-- Marker `"Reorienting as "`. -/
def sReorient : Str := "Reorienting as ".data

/-- Marker `"Cropping NIfTI/Analyze image "`. -/
def sCropping : Str := "Cropping NIfTI/Analyze image ".data

/-! ## The scraper -/

/-- The first `if`/`elif` chain of the `_parse_stdout` loop body: computes the
`file` value (rules 1, 2 and 4) and performs the b-vector/b-value appends of
rule 3, returning the updated state together with `file`. -/
def firstChain (cfg : Dcm2niiConfig) (st : ScrapeState) (line : Str) : ScrapeState × Option Str :=
  if sSaving.isPrefixOf line then
    (st, some (line.drop sSaving.length))
  else if sGZip.isPrefixOf line then
    (st, some (posixAbspath cfg.cwd (posixJoin (effectiveOutputDir cfg) (line.drop sGZip.length))))
  else if sNumDiff.isPrefixOf line then
    (if pyTruthy st.last_added_file then
       match st.last_added_file with
       | some laf =>
         let t := splitFilename laf
         { st with bvecs := st.bvecs ++ [posixJoin t.1 (t.2.1 ++ ".bvec".data)]
                 , bvals := st.bvals ++ [posixJoin t.1 (t.2.1 ++ ".bval".data)] }
       | none => st
     else st, none)
  else
    match arrowCapture line with
    | some cap => (st, some (posixJoin (effectiveOutputDir cfg) cap))
    | none => (st, none)

/-- The second half of the `_parse_stdout` loop body, reached when `file` is
falsy: rules 5 (`"Reorienting as "`) and 6 (`"Cropping NIfTI/Analyze image "`),
and otherwise `skip = False`. -/
def tailChecks (st : ScrapeState) (line : Str) : ScrapeState :=
  if sReorient.isPrefixOf line then
    { st with reoriented_files := st.reoriented_files ++ [line.drop sReorient.length]
            , skip := true }
  else if sCropping.isPrefixOf line then
    let pr := posixSplit (line.drop sCropping.length)
    { st with reoriented_and_cropped_files :=
        st.reoriented_and_cropped_files ++ [posixJoin pr.1 ('c' :: pr.2)]
            , skip := true }
  else { st with skip := false }

/-- One iteration of the `for line in stdout.split("\n")` loop of
`_parse_stdout`. -/
def lineStep (cfg : Dcm2niiConfig) (st : ScrapeState) (line : Str) : ScrapeState :=
  if st.skip then { st with skip := false }
  else
    match firstChain cfg st line with
    | (st1, some f) =>
      if f ≠ [] then { st1 with files := st1.files ++ [f], last_added_file := some f }
      else tailChecks st1 line
    | (st1, none) => tailChecks st1 line

/-- The `_parse_stdout` loop over a list of lines. -/
def parseLines (cfg : Dcm2niiConfig) (st : ScrapeState) (lines : List Str) : ScrapeState :=
  lines.foldl (lineStep cfg) st

/-- `_parse_stdout(stdout)`: split on newlines and run the loop from the
initial state. -/
def parseStdout (cfg : Dcm2niiConfig) (stdout : Str) : ScrapeState :=
  parseLines cfg initState (splitChar '\n' stdout)

/-! ## The scraper with a pre-resolved output directory

The spec's §9 asks for a scrape that is a pure function of the stdout text and
a single resolved output directory; these definitions resolve the directory
once, up front, instead of evaluating the resolution block at each matching
line as the source does. -/

/-- `firstChain` with the output directory resolved once and passed in. -/
def firstChainRes (cwd outDir : Str) (st : ScrapeState) (line : Str) : ScrapeState × Option Str :=
  if sSaving.isPrefixOf line then
    (st, some (line.drop sSaving.length))
  else if sGZip.isPrefixOf line then
    (st, some (posixAbspath cwd (posixJoin outDir (line.drop sGZip.length))))
  else if sNumDiff.isPrefixOf line then
    (if pyTruthy st.last_added_file then
       match st.last_added_file with
       | some laf =>
         let t := splitFilename laf
         { st with bvecs := st.bvecs ++ [posixJoin t.1 (t.2.1 ++ ".bvec".data)]
                 , bvals := st.bvals ++ [posixJoin t.1 (t.2.1 ++ ".bval".data)] }
       | none => st
     else st, none)
  else
    match arrowCapture line with
    | some cap => (st, some (posixJoin outDir cap))
    | none => (st, none)

/-- `lineStep` with the output directory resolved once and passed in. -/
def lineStepRes (cwd outDir : Str) (st : ScrapeState) (line : Str) : ScrapeState :=
  if st.skip then { st with skip := false }
  else
    match firstChainRes cwd outDir st line with
    | (st1, some f) =>
      if f ≠ [] then { st1 with files := st1.files ++ [f], last_added_file := some f }
      else tailChecks st1 line
    | (st1, none) => tailChecks st1 line

/-- The scrape as a pure function of the stdout text, the resolved output
directory and the invocation's working directory. -/
def parseStdoutRes (cwd outDir : Str) (stdout : Str) : ScrapeState :=
  (splitChar '\n' stdout).foldl (lineStepRes cwd outDir) initState

/-! ## The scraper with explicit failure points

`_parse_stdout` contains one operation that could in principle raise: the
index `val.groups()[0]` on the regex match's group tuple.  These definitions
model the match object and that index fallibly, so that "no line ever raises"
becomes a provable statement. -/

/-- The group tuple of `re.search('.*-->(.*)', line)`, or `none` when the
search finds no match. -/
def reSearchArrowGroups (line : Str) : Option (List Str) :=
  (arrowCapture line).map (fun g => [g])

/-- `firstChain` with the group index `groups()[0]` modelled as a fallible
list lookup; returns `none` if that lookup would raise. -/
def firstChainE (cfg : Dcm2niiConfig) (st : ScrapeState) (line : Str) :
    Option (ScrapeState × Option Str) :=
  if sSaving.isPrefixOf line then
    some (st, some (line.drop sSaving.length))
  else if sGZip.isPrefixOf line then
    some (st, some (posixAbspath cfg.cwd (posixJoin (effectiveOutputDir cfg) (line.drop sGZip.length))))
  else if sNumDiff.isPrefixOf line then
    some (if pyTruthy st.last_added_file then
       match st.last_added_file with
       | some laf =>
         let t := splitFilename laf
         { st with bvecs := st.bvecs ++ [posixJoin t.1 (t.2.1 ++ ".bvec".data)]
                 , bvals := st.bvals ++ [posixJoin t.1 (t.2.1 ++ ".bval".data)] }
       | none => st
     else st, none)
  else if (reSearchArrowGroups line).isSome then
    match (reSearchArrowGroups line).bind (fun gs => gs.head?) with
    | some cap => some (st, some (posixJoin (effectiveOutputDir cfg) cap))
    | none => none
  else some (st, none)

/-- `lineStep` with explicit failure points. -/
def lineStepE (cfg : Dcm2niiConfig) (st : ScrapeState) (line : Str) : Option ScrapeState :=
  if st.skip then some { st with skip := false }
  else
    match firstChainE cfg st line with
    | some (st1, some f) =>
      some (if f ≠ [] then { st1 with files := st1.files ++ [f], last_added_file := some f }
            else tailChecks st1 line)
    | some (st1, none) => some (tailChecks st1 line)
    | none => none

/-- The `_parse_stdout` loop with explicit failure points. -/
def parseStdoutE (cfg : Dcm2niiConfig) (stdout : Str) : Option ScrapeState :=
  (splitChar '\n' stdout).foldl
    (fun acc line => acc.bind (fun s => lineStepE cfg s line)) (some initState)

/-! ## The command builder -/

/-- The thirteen boolean option names enumerated by `_format_arg`. -/
def boolOpts : List Str :=
  [ "anonymize".data, "collapse_folders".data, "date_in_filename".data
  , "events_in_filename".data, "source_in_filename".data, "gzip_output".data
  , "id_in_filename".data, "nii_output".data, "protocol_in_filename".data
  , "reorient".data, "spm_analyze".data, "convert_all_pars".data
  , "reorient_and_crop".data ]

/-- Modelled from the spec: the base class `CommandLine._format_arg` is not
part of this source tree.  For a boolean trait whose `argstr` carries no
format placeholder, the spec says the flag token is emitted verbatim when the
value passed up is true (which is why the source forces the value to `True`
after appending `' n'`). -/
def superFormatArgBool (argstr : Str) (val : Bool) : Option Str :=
  if val then some argstr else none

/-- The boolean branch of `Dcm2nii._format_arg`: append `' y'` or `' n'` to a
copy of the option's `argstr`, force the value to `True` in the `' n'` case,
and delegate to the base class. -/
def formatArgBool (opt argstr : Str) (val : Bool) : Option Str :=
  if opt ∈ boolOpts then
    if val then superFormatArgBool (argstr ++ " y".data) val
    else superFormatArgBool (argstr ++ " n".data) true
  else superFormatArgBool argstr val

/-- Python `%`-formatting for the templates used here: substitute the first
`%s` with the given value. -/
def pyFormat1 : Str → Str → Str
  | [], _ => []
  | '%' :: 's' :: rest, v => v ++ rest
  | c :: rest, v => c :: pyFormat1 rest v

/-- The `argstr` of the `source_names` trait, `"%s"`. -/
def srcArgstr : Str := "%s".data

/-- The `source_names` branch of `Dcm2nii._format_arg`:
`spec.argstr % val[0]`, with the `val[0]` index modelled as a fallible head
lookup. -/
def formatArgSourceNames (argstr : Str) (val : List Str) : Option Str :=
  val.head?.map (fun v => pyFormat1 argstr v)

/-- Insert an entry into a position-sorted rendered-argument list. -/
def insertByPos (x : Nat × Str) : List (Nat × Str) → List (Nat × Str)
  | [] => [x]
  | y :: ys => if x.1 ≤ y.1 then x :: y :: ys else y :: insertByPos x ys

/-- Sort rendered arguments by their declared position, ascending. -/
def sortByPos : List (Nat × Str) → List (Nat × Str)
  | [] => []
  | x :: xs => insertByPos x (sortByPos xs)

/-- Modelled from the spec: the base class `CommandLine` builder is not part
of this source tree.  The spec says the command vector starts with the tool
name and lists each set option's rendered string in ascending declared
position; `source_names` is declared at position 16 and rendered by
`formatArgSourceNames`. -/
def buildCmd (tool : Str) (others : List (Nat × Str)) (sources : List Str) :
    Option (List Str) :=
  (formatArgSourceNames srcArgstr sources).map (fun tok =>
    tool :: (sortByPos ((16, tok) :: others)).map (fun pr => pr.2))

/-! ## Helper lemmas -/

theorem isPrefixOf_append_self (p rest : Str) : p.isPrefixOf (p ++ rest) = true := by
  induction p with
  | nil => cases rest <;> rfl
  | cons c cs ih => simp [List.isPrefixOf, ih]

theorem saving_npre_reor (rest : Str) : sSaving.isPrefixOf (sReorient ++ rest) = false := rfl

theorem gzip_npre_reor (rest : Str) : sGZip.isPrefixOf (sReorient ++ rest) = false := rfl

theorem numdiff_npre_reor (rest : Str) : sNumDiff.isPrefixOf (sReorient ++ rest) = false := rfl

theorem saving_npre_num (rest : Str) : sSaving.isPrefixOf (sNumDiff ++ rest) = false := rfl

theorem gzip_npre_num (rest : Str) : sGZip.isPrefixOf (sNumDiff ++ rest) = false := rfl

theorem reor_npre_num (rest : Str) : sReorient.isPrefixOf (sNumDiff ++ rest) = false := rfl

theorem crop_npre_num (rest : Str) : sCropping.isPrefixOf (sNumDiff ++ rest) = false := rfl

theorem saving_npre_crop (rest : Str) : sSaving.isPrefixOf (sCropping ++ rest) = false := rfl

theorem gzip_npre_crop (rest : Str) : sGZip.isPrefixOf (sCropping ++ rest) = false := rfl

theorem numdiff_npre_crop (rest : Str) : sNumDiff.isPrefixOf (sCropping ++ rest) = false := rfl

theorem reor_npre_crop (rest : Str) : sReorient.isPrefixOf (sCropping ++ rest) = false := rfl

theorem posixJoin_ne_nil {a : Str} (b : Str) (h : a ≠ []) : posixJoin a b ≠ [] := by
  unfold posixJoin
  split_ifs with h1 h2
  · intro hb
    subst hb
    exact absurd h1 (by decide)
  · simp [h]
  · simp

/-- `tailChecks` never touches the b-vector or b-value lists. -/
theorem tailChecks_bv (st : ScrapeState) (line : Str) :
    (tailChecks st line).bvecs = st.bvecs ∧ (tailChecks st line).bvals = st.bvals := by
  unfold tailChecks
  split_ifs <;> exact ⟨rfl, rfl⟩

/-- The first `if`/`elif` chain either leaves the state unchanged or appends
exactly one entry to each of the b-vector and b-value lists. -/
theorem firstChain_bv (cfg : Dcm2niiConfig) (st : ScrapeState) (line : Str) :
    ((firstChain cfg st line).1 = st)
    ∨ (∃ x y, (firstChain cfg st line).1
        = { st with bvecs := st.bvecs ++ [x], bvals := st.bvals ++ [y] }) := by
  unfold firstChain
  repeat' split
  all_goals first
  | exact Or.inl rfl
  | exact Or.inr ⟨_, _, rfl⟩

/-- When the last added file is unset, or the line is not a diffusion line,
the first chain leaves the state unchanged. -/
theorem firstChain_fst_eq (cfg : Dcm2niiConfig) (st : ScrapeState) (line : Str)
    (h : st.last_added_file = none ∨ sNumDiff.isPrefixOf line = false) :
    (firstChain cfg st line).1 = st := by
  unfold firstChain
  repeat' split
  all_goals simp_all [pyTruthy]

/-- One loop iteration preserves equality of the b-vector and b-value list
lengths. -/
theorem lineStep_bv_len (cfg : Dcm2niiConfig) (st : ScrapeState) (line : Str)
    (h : st.bvecs.length = st.bvals.length) :
    (lineStep cfg st line).bvecs.length = (lineStep cfg st line).bvals.length := by
  unfold lineStep
  cases hs : st.skip with
  | true => simpa using h
  | false =>
    have hbv := firstChain_bv cfg st line
    rcases hfc : firstChain cfg st line with ⟨st1, file⟩
    rw [hfc] at hbv
    have hlen : st1.bvecs.length = st1.bvals.length := by
      rcases hbv with hbv | ⟨x, y, hbv⟩ <;> simp_all
    have htc := tailChecks_bv st1 line
    cases file with
    | none => simp [htc.1, htc.2, hlen]
    | some f =>
      by_cases hf : f ≠ [] <;> simp [hf, htc.1, htc.2, hlen]

/-- The loop preserves equality of the b-vector and b-value list lengths. -/
theorem parseLines_bv_len (cfg : Dcm2niiConfig) (lines : List Str) :
    ∀ st : ScrapeState, st.bvecs.length = st.bvals.length →
      (parseLines cfg st lines).bvecs.length = (parseLines cfg st lines).bvals.length := by
  induction lines with
  | nil => intro st h; exact h
  | cons l ls ih =>
    intro st h
    exact ih (lineStep cfg st l) (lineStep_bv_len cfg st l h)

theorem firstChainE_eq (cfg : Dcm2niiConfig) (st : ScrapeState) (line : Str) :
    firstChainE cfg st line = some (firstChain cfg st line) := by
  unfold firstChainE firstChain reSearchArrowGroups
  cases h : arrowCapture line <;> split_ifs <;> simp_all

theorem lineStepE_eq (cfg : Dcm2niiConfig) (st : ScrapeState) (line : Str) :
    lineStepE cfg st line = some (lineStep cfg st line) := by
  unfold lineStepE lineStep
  cases hs : st.skip with
  | true => simp
  | false =>
    rw [firstChainE_eq]
    rcases firstChain cfg st line with ⟨st1, _ | f⟩ <;> rfl

theorem parseLinesE_eq (cfg : Dcm2niiConfig) (lines : List Str) :
    ∀ st : ScrapeState,
      lines.foldl (fun acc line => acc.bind (fun s => lineStepE cfg s line)) (some st)
        = some (lines.foldl (lineStep cfg) st) := by
  induction lines with
  | nil => intro st; rfl
  | cons l ls ih =>
    intro st
    have h1 : ((some st).bind fun s => lineStepE cfg s l) = some (lineStep cfg st l) :=
      lineStepE_eq cfg st l
    show ls.foldl (fun acc line => acc.bind fun s => lineStepE cfg s line)
        ((some st).bind fun s => lineStepE cfg s l)
      = some (ls.foldl (lineStep cfg) (lineStep cfg st l))
    rw [h1]
    exact ih (lineStep cfg st l)

/-! ## Claims -/

/-- C1: when the user supplied no output directory the scraper generates the
effective output directory by the policy "current working directory at
invocation time" (`_gen_filename('output_dir')` returns `os.getcwd()`), and
with the working directory fixed for the invocation the scrape coincides with
a scrape that resolves the output directory exactly once up front and uses
that single value for every relative-path resolution of the run. -/
theorem claim_C1_output_dir_once :
    (∀ (cfg : Dcm2niiConfig) (stdout : Str),
      parseStdout cfg stdout = parseStdoutRes cfg.cwd (effectiveOutputDir cfg) stdout)
    ∧ (∀ cwd : Str, effectiveOutputDir ⟨none, cwd⟩ = genFilenameOutputDir ⟨none, cwd⟩)
    ∧ (∀ cwd : Str, genFilenameOutputDir ⟨none, cwd⟩ = cwd)
    ∧ (∀ d cwd : Str, effectiveOutputDir ⟨some d, cwd⟩ = d) :=
  ⟨fun _ _ => rfl, fun _ => rfl, fun _ => rfl, fun _ _ => rfl⟩

/-- C2: classification rules 1–4 take priority over rules 5–6: a non-skipped
line that begins with "Reorienting as " and also matches the arrow pattern is
handled by rule 4 — the captured suffix, resolved against the effective
output directory, is appended to the converted list — and nothing is appended
to the reoriented list.  (The hypothesis that the effective output directory
is a non-empty string holds for every reachable configuration: a validated
user-supplied directory exists, and `os.getcwd()` is never empty.) -/
theorem claim_C2_rule4_beats_rule5 (cfg : Dcm2niiConfig) (st : ScrapeState)
    (rest cap : Str) (hd : effectiveOutputDir cfg ≠ [])
    (hskip : st.skip = false)
    (hcap : arrowCapture (sReorient ++ rest) = some cap) :
    (lineStep cfg st (sReorient ++ rest)).files
        = st.files ++ [posixJoin (effectiveOutputDir cfg) cap]
    ∧ (lineStep cfg st (sReorient ++ rest)).reoriented_files = st.reoriented_files := by
  have hne : posixJoin (effectiveOutputDir cfg) cap ≠ [] := posixJoin_ne_nil cap hd
  have hfc : firstChain cfg st (sReorient ++ rest)
      = (st, some (posixJoin (effectiveOutputDir cfg) cap)) := by
    unfold firstChain
    simp [saving_npre_reor, gzip_npre_reor, numdiff_npre_reor, hcap]
  unfold lineStep
  rw [hskip, hfc]
  simp [hne]

theorem claim_C2_witness :
    (lineStep ⟨some ("/tmp/out".data), "/cwd".data⟩ initState (sReorient ++ "x-->y".data)).files
        = initState.files
          ++ [posixJoin (effectiveOutputDir ⟨some ("/tmp/out".data), "/cwd".data⟩) ("y".data)]
    ∧ (lineStep ⟨some ("/tmp/out".data), "/cwd".data⟩ initState (sReorient ++ "x-->y".data)).reoriented_files
        = initState.reoriented_files :=
  claim_C2_rule4_beats_rule5 ⟨some ("/tmp/out".data), "/cwd".data⟩ initState
    ("x-->y".data) ("y".data) (by decide) rfl (by decide)

/-- C3: whenever the skip-next-line flag is set, the following line is
unconditionally ignored regardless of its own content and the flag is
cleared, so exactly one line is skipped per trigger and skips never
accumulate; in particular the spec's example, where the "GZip..." line
immediately after a "Reorienting as " line contributes nothing to the
converted list. -/
theorem claim_C3_skip_exactly_one :
    (∀ (cfg : Dcm2niiConfig) (st : ScrapeState) (line : Str), st.skip = true →
      lineStep cfg st line = { st with skip := false })
    ∧ (parseStdout ⟨some ("/tmp/out".data), "/cwd".data⟩
        ("Reorienting as /tmp/out/r_img\nGZip.../tmp/out/ignored.nii.gz\n".data)).reoriented_files
        = ["/tmp/out/r_img".data]
    ∧ (parseStdout ⟨some ("/tmp/out".data), "/cwd".data⟩
        ("Reorienting as /tmp/out/r_img\nGZip.../tmp/out/ignored.nii.gz\n".data)).files = [] := by
  refine ⟨fun cfg st line h => ?_, by decide, by decide⟩
  unfold lineStep
  rw [h]
  simp

theorem claim_C3_witness :
    lineStep ⟨none, "/w".data⟩ { initState with skip := true } ("GZip...x".data)
      = { { initState with skip := true } with skip := false } :=
  claim_C3_skip_exactly_one.1 ⟨none, "/w".data⟩ { initState with skip := true }
    ("GZip...x".data) rfl

/-- C4: a "Number of diffusion directions " line processed while a last file
is remembered appends exactly one sibling `.bvec` path to the b-vector list
and one sibling `.bval` path to the b-value list — same directory and base
name as the last file — and alters neither the remembered last file nor the
converted list; concretely, "Saving /tmp/out/img" followed by "Number of
diffusion directions 32" yields converted=["/tmp/out/img"],
bvecs=["/tmp/out/img.bvec"], bvals=["/tmp/out/img.bval"]. -/
theorem claim_C4_diffusion_directions (cfg : Dcm2niiConfig) (st : ScrapeState)
    (rest laf : Str) (hskip : st.skip = false)
    (hlast : st.last_added_file = some laf) (hne : laf ≠ []) :
    ((lineStep cfg st (sNumDiff ++ rest)).bvecs
        = st.bvecs ++ [posixJoin (splitFilename laf).1 ((splitFilename laf).2.1 ++ ".bvec".data)]
      ∧ (lineStep cfg st (sNumDiff ++ rest)).bvals
        = st.bvals ++ [posixJoin (splitFilename laf).1 ((splitFilename laf).2.1 ++ ".bval".data)]
      ∧ (lineStep cfg st (sNumDiff ++ rest)).last_added_file = st.last_added_file
      ∧ (lineStep cfg st (sNumDiff ++ rest)).files = st.files)
    ∧ parseStdout ⟨some ("/tmp/out".data), "/cwd".data⟩
        ("Saving /tmp/out/img\nNumber of diffusion directions 32\n".data)
      = { files := ["/tmp/out/img".data], reoriented_files := []
        , reoriented_and_cropped_files := []
        , bvecs := ["/tmp/out/img.bvec".data], bvals := ["/tmp/out/img.bval".data]
        , skip := false, last_added_file := some ("/tmp/out/img".data) } := by
  refine ⟨?_, by decide⟩
  have hfc : firstChain cfg st (sNumDiff ++ rest)
      = ({ st with
            bvecs := st.bvecs
              ++ [posixJoin (splitFilename laf).1 ((splitFilename laf).2.1 ++ ".bvec".data)]
          , bvals := st.bvals
              ++ [posixJoin (splitFilename laf).1 ((splitFilename laf).2.1 ++ ".bval".data)] }
        , none) := by
    unfold firstChain
    simp [saving_npre_num, gzip_npre_num, isPrefixOf_append_self, hlast, pyTruthy, hne]
  unfold lineStep
  rw [hskip, hfc]
  have htc := tailChecks_bv
    { st with
        bvecs := st.bvecs
          ++ [posixJoin (splitFilename laf).1 ((splitFilename laf).2.1 ++ ".bvec".data)]
      , bvals := st.bvals
          ++ [posixJoin (splitFilename laf).1 ((splitFilename laf).2.1 ++ ".bval".data)] }
    (sNumDiff ++ rest)
  unfold tailChecks at htc ⊢
  simp [reor_npre_num, crop_npre_num]

theorem claim_C4_witness :
    ((lineStep ⟨none, "/w".data⟩ { initState with last_added_file := some ("/tmp/out/img".data) }
        (sNumDiff ++ "32".data)).bvecs
      = ({ initState with last_added_file := some ("/tmp/out/img".data) } : ScrapeState).bvecs
        ++ [posixJoin (splitFilename ("/tmp/out/img".data)).1
              ((splitFilename ("/tmp/out/img".data)).2.1 ++ ".bvec".data)]
    ∧ (lineStep ⟨none, "/w".data⟩ { initState with last_added_file := some ("/tmp/out/img".data) }
        (sNumDiff ++ "32".data)).bvals
      = ({ initState with last_added_file := some ("/tmp/out/img".data) } : ScrapeState).bvals
        ++ [posixJoin (splitFilename ("/tmp/out/img".data)).1
              ((splitFilename ("/tmp/out/img".data)).2.1 ++ ".bval".data)]
    ∧ (lineStep ⟨none, "/w".data⟩ { initState with last_added_file := some ("/tmp/out/img".data) }
        (sNumDiff ++ "32".data)).last_added_file
      = ({ initState with last_added_file := some ("/tmp/out/img".data) } : ScrapeState).last_added_file
    ∧ (lineStep ⟨none, "/w".data⟩ { initState with last_added_file := some ("/tmp/out/img".data) }
        (sNumDiff ++ "32".data)).files
      = ({ initState with last_added_file := some ("/tmp/out/img".data) } : ScrapeState).files)
    ∧ parseStdout ⟨some ("/tmp/out".data), "/cwd".data⟩
        ("Saving /tmp/out/img\nNumber of diffusion directions 32\n".data)
      = { files := ["/tmp/out/img".data], reoriented_files := []
        , reoriented_and_cropped_files := []
        , bvecs := ["/tmp/out/img.bvec".data], bvals := ["/tmp/out/img.bval".data]
        , skip := false, last_added_file := some ("/tmp/out/img".data) } :=
  claim_C4_diffusion_directions ⟨none, "/w".data⟩
    { initState with last_added_file := some ("/tmp/out/img".data) }
    ("32".data) ("/tmp/out/img".data) rfl rfl (by decide)

/-- C5: every boolean-typed option renders as `<flag> y` when true and
`<flag> n` when false, independently of which boolean option it is and of its
flag string. -/
theorem claim_C5_bool_render (opt : Str) (hopt : opt ∈ boolOpts) (flag : Str) :
    formatArgBool opt flag true = some (flag ++ " y".data)
    ∧ formatArgBool opt flag false = some (flag ++ " n".data) := by
  constructor <;> simp [formatArgBool, superFormatArgBool, hopt]

theorem claim_C5_witness :
    formatArgBool ("anonymize".data) ("-a".data) true = some ("-a".data ++ " y".data)
    ∧ formatArgBool ("anonymize".data) ("-a".data) false = some ("-a".data ++ " n".data) :=
  claim_C5_bool_render ("anonymize".data) (by decide) ("-a".data)

/-- C6: for every source list of length at least two, the source-names option
renders exactly the list's first element (its `"%s"` flag template applied to
`val[0]`), and the built command vector is the same as the one built from the
first element alone — the remaining elements never contribute to it.  The
entry is placed at the flag's declared position by the position-ascending
builder. -/
theorem claim_C6_source_names_first (tool : Str) (others : List (Nat × Str))
    (s0 s1 : Str) (rest : List Str) :
    formatArgSourceNames srcArgstr (s0 :: s1 :: rest) = some s0
    ∧ buildCmd tool others (s0 :: s1 :: rest) = buildCmd tool others [s0] := by
  have h : pyFormat1 srcArgstr s0 = s0 := by
    show pyFormat1 ('%' :: 's' :: ([] : Str)) s0 = s0
    simp [pyFormat1]
  constructor
  · simp [formatArgSourceNames, h]
  · simp [buildCmd, formatArgSourceNames, h]

/-- C7: a non-skipped line beginning with "Cropping NIfTI/Analyze image "
that matches none of rules 1–4 has its remainder split into directory and
filename, the filename prefixed with "c", and the recombined path appended to
the reoriented-and-cropped list (and the skip flag set); concretely, stdout
"Cropping NIfTI/Analyze image /tmp/out/img.nii\n" yields
reoriented_and_cropped=["/tmp/out/cimg.nii"]. -/
theorem claim_C7_cropping (cfg : Dcm2niiConfig) (st : ScrapeState) (rest : Str)
    (hskip : st.skip = false) (hcap : arrowCapture (sCropping ++ rest) = none) :
    ((lineStep cfg st (sCropping ++ rest)).reoriented_and_cropped_files
        = st.reoriented_and_cropped_files
          ++ [posixJoin (posixSplit rest).1 ('c' :: (posixSplit rest).2)]
      ∧ (lineStep cfg st (sCropping ++ rest)).skip = true)
    ∧ (parseStdout ⟨some ("/tmp/out".data), "/cwd".data⟩
        ("Cropping NIfTI/Analyze image /tmp/out/img.nii\n".data)).reoriented_and_cropped_files
      = ["/tmp/out/cimg.nii".data] := by
  refine ⟨?_, by decide⟩
  have hfc : firstChain cfg st (sCropping ++ rest) = (st, none) := by
    unfold firstChain
    simp [saving_npre_crop, gzip_npre_crop, numdiff_npre_crop, hcap]
  unfold lineStep
  rw [hskip, hfc]
  unfold tailChecks
  simp [reor_npre_crop, isPrefixOf_append_self, List.drop_left]

theorem claim_C7_witness :
    ((lineStep ⟨some ("/tmp/out".data), "/cwd".data⟩ initState
        (sCropping ++ "/tmp/out/img.nii".data)).reoriented_and_cropped_files
      = initState.reoriented_and_cropped_files
        ++ [posixJoin (posixSplit ("/tmp/out/img.nii".data)).1
              ('c' :: (posixSplit ("/tmp/out/img.nii".data)).2)]
    ∧ (lineStep ⟨some ("/tmp/out".data), "/cwd".data⟩ initState
        (sCropping ++ "/tmp/out/img.nii".data)).skip = true)
    ∧ (parseStdout ⟨some ("/tmp/out".data), "/cwd".data⟩
        ("Cropping NIfTI/Analyze image /tmp/out/img.nii\n".data)).reoriented_and_cropped_files
      = ["/tmp/out/cimg.nii".data] :=
  claim_C7_cropping ⟨some ("/tmp/out".data), "/cwd".data⟩ initState
    ("/tmp/out/img.nii".data) rfl (by decide)

/-- C8: the scraper completes the full forward pass and returns a result for
every captured stdout text without raising: the variant whose one fallible
operation (the regex group index `groups()[0]`) is modelled explicitly always
succeeds, and returns exactly the total scraper's result. -/
theorem claim_C8_never_raises (cfg : Dcm2niiConfig) (stdout : Str) :
    parseStdoutE cfg stdout = some (parseStdout cfg stdout) := by
  unfold parseStdoutE parseStdout parseLines
  exact parseLinesE_eq cfg (splitChar '\n' stdout) initState

/-- C9 (counterexample): two scrapes of the same stdout text with the same
effective output directory need not agree — the GZip rule absolutizes against
the working directory, so with a relative user-supplied output directory the
result also depends on the working directory. -/
theorem claim_C9_counterexample :
    effectiveOutputDir ⟨some (".".data), "/a".data⟩
      = effectiveOutputDir ⟨some (".".data), "/b".data⟩
    ∧ parseStdout ⟨some (".".data), "/a".data⟩ ("GZip...f".data)
      ≠ parseStdout ⟨some (".".data), "/b".data⟩ ("GZip...f".data) := by
  decide

/-- C9 (amended): the scrape is a deterministic function of the captured
stdout text, the resolved output directory AND the invocation's working
directory (used by the GZip rule's absolutization): two independent scrapes
of the same text agreeing on both directories yield identical, order-equal
results. -/
theorem claim_C9_deterministic (cfg1 cfg2 : Dcm2niiConfig) (stdout : Str)
    (hdir : effectiveOutputDir cfg1 = effectiveOutputDir cfg2)
    (hcwd : cfg1.cwd = cfg2.cwd) :
    parseStdout cfg1 stdout = parseStdout cfg2 stdout := by
  have h1 : parseStdout cfg1 stdout
      = parseStdoutRes cfg1.cwd (effectiveOutputDir cfg1) stdout := rfl
  have h2 : parseStdout cfg2 stdout
      = parseStdoutRes cfg2.cwd (effectiveOutputDir cfg2) stdout := rfl
  rw [h1, h2, hdir, hcwd]

theorem claim_C9_witness :
    parseStdout ⟨none, "/w".data⟩ ("Saving x\nGZip...y.nii.gz\n".data)
      = parseStdout ⟨some ("/w".data), "/w".data⟩ ("Saving x\nGZip...y.nii.gz\n".data) :=
  claim_C9_deterministic ⟨none, "/w".data⟩ ⟨some ("/w".data), "/w".data⟩
    ("Saving x\nGZip...y.nii.gz\n".data) (by decide) rfl

/-- C10: after processing any prefix of the stdout lines the b-vector and
b-value lists have equal length; moreover a line processed with no remembered
last file leaves both lists unchanged, and a line that does not begin with
"Number of diffusion directions " leaves both lists unchanged. -/
theorem claim_C10_bvec_bval_balanced :
    (∀ (cfg : Dcm2niiConfig) (stdout : Str) (n : Nat),
      (parseLines cfg initState ((splitChar '\n' stdout).take n)).bvecs.length
        = (parseLines cfg initState ((splitChar '\n' stdout).take n)).bvals.length)
    ∧ (∀ (cfg : Dcm2niiConfig) (st : ScrapeState) (line : Str),
        st.last_added_file = none →
        (lineStep cfg st line).bvecs = st.bvecs ∧ (lineStep cfg st line).bvals = st.bvals)
    ∧ (∀ (cfg : Dcm2niiConfig) (st : ScrapeState) (line : Str),
        sNumDiff.isPrefixOf line = false →
        (lineStep cfg st line).bvecs = st.bvecs ∧ (lineStep cfg st line).bvals = st.bvals) := by
  have key : ∀ (cfg : Dcm2niiConfig) (st : ScrapeState) (line : Str),
      (st.last_added_file = none ∨ sNumDiff.isPrefixOf line = false) →
      (lineStep cfg st line).bvecs = st.bvecs ∧ (lineStep cfg st line).bvals = st.bvals := by
    intro cfg st line h
    unfold lineStep
    cases hs : st.skip with
    | true => exact ⟨rfl, rfl⟩
    | false =>
      have hfc1 := firstChain_fst_eq cfg st line h
      rcases hfc : firstChain cfg st line with ⟨st1, file⟩
      rw [hfc] at hfc1
      simp only at hfc1
      subst hfc1
      have htc := tailChecks_bv st1 line
      cases file with
      | none => exact htc
      | some f => by_cases hf : f = [] <;> simp [hf, htc.1, htc.2]
  refine ⟨?_, fun cfg st line h => key cfg st line (Or.inl h),
    fun cfg st line h => key cfg st line (Or.inr h)⟩
  intro cfg stdout n
  exact parseLines_bv_len cfg ((splitChar '\n' stdout).take n) initState rfl

theorem claim_C10_witness :
    (lineStep ⟨none, "/w".data⟩ initState ("hello world".data)).bvecs = initState.bvecs
    ∧ (lineStep ⟨none, "/w".data⟩ initState ("hello world".data)).bvals = initState.bvals :=
  claim_C10_bvec_bval_balanced.2.1 ⟨none, "/w".data⟩ initState ("hello world".data) rfl

end Dcm2nii
